import Mathlib

/-!
Shallow embedding of the pet state access layer of the pixelpet repository
(src/app/services/pet_service.py): the PetRepository and ShopRepository
operations over a PostgreSQL store and a Redis cache, modelled as pure
functions on an explicit system state.

Conventions of the embedding:
* database rows are records in Lean lists, in insertion order; where SQL row
  order is unspecified (fetchrow over an unordered result) the model picks the
  first row in list order;
* timestamps are epoch seconds as naturals; NOW() is an explicit parameter of
  the operations that use it;
* the Redis client has three observable modes taken from the code paths of
  pet_service.py: absent (self.db.redis_client is None, every access is
  skipped), working, and failing (the client object exists but every command
  raises, as redis-py does on a connection fault; the code wraps no cache
  command in a try block, so such an exception escapes the repository method);
* a Python coroutine that can raise is modelled as returning an Except value
  paired with the state it leaves behind (a raise after a committed
  transaction still leaves the committed store state);
* boolean columns (is_sick, is_sleeping) are carried as integers, which no
  claim inspects.
-/

namespace PixelPet

/-- Mutable stat columns of the pets table, exactly the fields named in the
allow-list of PetRepository.update_pet. -/
structure PetStats where
  hunger : Int
  happiness : Int
  cleanliness : Int
  health : Int
  energy : Int
  discipline : Int
  level : Int
  experience : Int
  coins : Int
  is_sick : Int
  is_sleeping : Int
  care_mistakes : Int
  games_won : Int
  games_lost : Int
deriving DecidableEq, Repr

/-- Row of the pets table. -/
structure Pet where
  id : Nat
  user_id : Int
  name : String
  stats : PetStats
  birth_time : Nat
  last_update : Nat
deriving DecidableEq, Repr

/-- Row of the items catalog table. -/
structure Item where
  id : Nat
  name : String
  category : String
  price : Int
deriving DecidableEq, Repr

/-- Row of the pet_items inventory join table. -/
structure PetItemRow where
  pet_id : Nat
  item_id : Nat
  quantity : Int
deriving DecidableEq, Repr

/-- Row of the game_sessions table, the columns written by
PetRepository.record_game_session (created_at takes a schema default outside
the sources and is not modelled). -/
structure GameSession where
  pet_id : Nat
  game_type : String
  result : String
  experience_gained : Int
  coins_gained : Int
deriving DecidableEq, Repr

/-- State of the relational store. next_pet_id models the serial id sequence
of the pets table. -/
structure DB where
  users : List Int
  pets : List Pet
  items : List Item
  pet_items : List PetItemRow
  game_sessions : List GameSession
  next_pet_id : Nat
deriving DecidableEq, Repr

/-- Assembled pet snapshot as returned (and cached) by
PetRepository.get_pet_by_user_id: the pet row columns, numeric timestamps, and
the aggregated item-name to quantity mapping. -/
structure PetData where
  id : Nat
  user_id : Int
  name : String
  stats : PetStats
  birth_time : Nat
  last_update : Nat
  items : List (String × Int)
deriving DecidableEq, Repr

/-- Observable modes of the Redis client: absent (None, accesses skipped by
the `if self.db.redis_client` guards), working, or failing (every command
raises). -/
inductive CacheMode where
  | unavailable
  | ok
  | failing
deriving DecidableEq, Repr

/-- State of the cache. The key space of pet_service.py holds pet snapshots
under keys pet:userId and the catalog under the key shop:items; the two key
families never collide, so they are carried as separate tables indexed by
user id and by the distinguished catalog key. Each entry records the TTL
passed to setex. -/
structure Cache where
  mode : CacheMode
  pets : List (Int × Nat × PetData)
  items : Option (Nat × List Item)
deriving DecidableEq, Repr

/-- Combined state seen by a repository operation. -/
structure Sys where
  db : DB
  cache : Cache
deriving DecidableEq, Repr

/-- Aggregated items mapping of a pet, as built by the LEFT JOINs and
json_object_agg of get_pet_by_user_id: one (name, quantity) entry per
inventory row of the pet joined with a catalog row of matching id; rows whose
item_id matches no catalog row contribute nothing (the FILTER clause drops
NULL names). -/
def petItemsMap (db : DB) (pid : Nat) : List (String × Int) :=
  (db.pet_items.filter (fun r => r.pet_id == pid)).flatMap
    (fun r => (db.items.filter (fun i => i.id == r.item_id)).map
      (fun i => (i.name, r.quantity)))

/-- Pet snapshot assembled from a pet row, as dict(row) with timestamp
conversion in get_pet_by_user_id. -/
def toPetData (db : DB) (p : Pet) : PetData :=
  ⟨p.id, p.user_id, p.name, p.stats, p.birth_time, p.last_update,
    petItemsMap db p.id⟩

/-- Store half of get_pet_by_user_id: the fetchrow against pets grouped by
pet id, restricted to the user; with several pets for one user the SQL row
order is unspecified and the model picks the first in list order. -/
def dbGetPet (uid : Int) (db : DB) : Option PetData :=
  (db.pets.find? (fun p => p.user_id == uid)).map (toPetData db)

/-- PetRepository.get_pet_by_user_id: cache-aside read. A present client is
consulted first (a failing client raises there); on a miss the store is
queried and, with a working client, the snapshot is written back under the
pet key with TTL 300. -/
def get_pet_by_user_id (uid : Int) (s : Sys) :
    Except Unit (Option PetData) × Sys :=
  match s.cache.mode with
  | .failing => (.error (), s)
  | .ok =>
    match s.cache.pets.find? (fun e => e.1 == uid) with
    | some e => (.ok (some e.2.2), s)
    | none =>
      match dbGetPet uid s.db with
      | none => (.ok none, s)
      | some d =>
        (.ok (some d),
          { s with cache :=
            { s.cache with
              pets := (uid, 300, d) :: s.cache.pets.filter (fun e => !(e.1 == uid)) } })
  | .unavailable => (.ok (dbGetPet uid s.db), s)

/-- Cache invalidation of the pet key, the `if self.db.redis_client:
self.db.redis_client.delete(...)` fragment: skipped when the client is
absent, raising when the client is failing. -/
def cacheDeletePet (uid : Int) (c : Cache) : Except Unit Cache :=
  match c.mode with
  | .failing => .error ()
  | .ok => .ok { c with pets := c.pets.filter (fun e => !(e.1 == uid)) }
  | .unavailable => .ok c

/-- Modelled from the spec: the INSERT of create_pet supplies only user_id,
name and birth_time, so the remaining pet columns take schema defaults, and
the schema definition is not among the sources. The spec fixes last-update to
the current timestamp (handled in create_pet below); the default stat values
are an arbitrary fixed record on which no claim depends. -/
def defaultStats : PetStats := ⟨0, 0, 0, 0, 0, 0, 0, 0, 0, 0, 0, 0, 0, 0⟩

/-- Pet row inserted by create_pet: fresh serial id, the current timestamp as
birth time, and (per the spec, the schema being outside the sources) the
current timestamp as last-update and schema defaults for the stats. -/
def created_pet (uid : Int) (name : String) (now : Nat) (db : DB) : Pet :=
  { id := db.next_pet_id, user_id := uid, name := name, stats := defaultStats,
    birth_time := now, last_update := now }

/-- Transaction body of PetRepository.create_pet: insert the user if absent
(conflict-tolerant), insert the pet row, and seed one inventory row per
catalog item with quantity 1 for medicine and toy and 0 otherwise. -/
def create_db (uid : Int) (name : String) (now : Nat) (db : DB) : DB :=
  { db with
    users := if db.users.contains uid then db.users else db.users ++ [uid]
    pets := db.pets ++ [created_pet uid name now db]
    pet_items := db.pet_items ++ db.items.map (fun i =>
      PetItemRow.mk db.next_pet_id i.id
        (if i.name == "medicine" || i.name == "toy" then 1 else 0))
    next_pet_id := db.next_pet_id + 1 }

/-- PetRepository.create_pet: run the transaction, then delete the pet cache
key and return get_pet_by_user_id. -/
def create_pet (uid : Int) (name : String) (now : Nat) (s : Sys) :
    Except Unit (Option PetData) × Sys :=
  let s1 : Sys := { s with db := create_db uid name now s.db }
  match cacheDeletePet uid s1.cache with
  | .error _ => (.error (), s1)
  | .ok c => get_pet_by_user_id uid { s1 with cache := c }

/-- Allow-list of updatable fields in PetRepository.update_pet. -/
def allowedFields : List String :=
  ["hunger", "happiness", "cleanliness", "health", "energy",
   "discipline", "level", "experience", "coins", "is_sick",
   "is_sleeping", "care_mistakes", "games_won", "games_lost"]

/-- Assignment of one allow-listed column; any other field name leaves the
record unchanged (update_pet never emits a SET clause for it). -/
def setStat (field : String) (v : Int) (st : PetStats) : PetStats :=
  if field == "hunger" then { st with hunger := v }
  else if field == "happiness" then { st with happiness := v }
  else if field == "cleanliness" then { st with cleanliness := v }
  else if field == "health" then { st with health := v }
  else if field == "energy" then { st with energy := v }
  else if field == "discipline" then { st with discipline := v }
  else if field == "level" then { st with level := v }
  else if field == "experience" then { st with experience := v }
  else if field == "coins" then { st with coins := v }
  else if field == "is_sick" then { st with is_sick := v }
  else if field == "is_sleeping" then { st with is_sleeping := v }
  else if field == "care_mistakes" then { st with care_mistakes := v }
  else if field == "games_won" then { st with games_won := v }
  else if field == "games_lost" then { st with games_lost := v }
  else st

/-- Application of the parameterized SET clauses built by update_pet; every
right-hand side is a constant parameter, so sequential application agrees
with the simultaneous SQL assignment (field names of a Python dict are
pairwise distinct). -/
def applyUpdates (upds : List (String × Int)) (st : PetStats) : PetStats :=
  upds.foldl (fun acc u => setStat u.1 u.2 acc) st

/-- PetRepository.update_pet: returns False on an empty mapping or when every
field is dropped by the allow-list; otherwise one UPDATE sets the surviving
fields plus last_update = NOW() on every pet row of the user, the pet cache
key is deleted, and the result is whether the UPDATE touched at least one
row (the command tag differs from UPDATE 0). -/
def update_pet (uid : Int) (upds : List (String × Int)) (now : Nat) (s : Sys) :
    Except Unit Bool × Sys :=
  if upds.isEmpty then (.ok false, s)
  else
    let filtered := upds.filter (fun u => allowedFields.contains u.1)
    if filtered.isEmpty then (.ok false, s)
    else
      let changed := s.db.pets.any (fun p => p.user_id == uid)
      let pets1 := s.db.pets.map (fun p =>
        if p.user_id == uid then
          { p with stats := applyUpdates filtered p.stats, last_update := now }
        else p)
      let s1 : Sys := { s with db := { s.db with pets := pets1 } }
      match cacheDeletePet uid s1.cache with
      | .error _ => (.error (), s1)
      | .ok c => (.ok changed, { s1 with cache := c })

/-- Join condition of the UPDATE in PetRepository.update_pet_items: the
inventory row belongs to a pet of the user and to the catalog item of the
given name. -/
def adjTouches (db : DB) (uid : Int) (item_name : String) (r : PetItemRow) : Bool :=
  db.pets.any (fun p => p.id == r.pet_id && p.user_id == uid) &&
  db.items.any (fun i => i.id == r.item_id && i.name == item_name)

/-- PetRepository.update_pet_items: one UPDATE setting
quantity = GREATEST(0, quantity + delta) on every inventory row joining the
user and the item name (no row, no effect), then deletion of the pet cache
key. -/
def update_pet_items (uid : Int) (item_name : String) (quantity_change : Int)
    (s : Sys) : Except Unit Unit × Sys :=
  let rows1 := s.db.pet_items.map (fun r =>
    if adjTouches s.db uid item_name r then
      { r with quantity := max 0 (r.quantity + quantity_change) }
    else r)
  let s1 : Sys := { s with db := { s.db with pet_items := rows1 } }
  match cacheDeletePet uid s1.cache with
  | .error _ => (.error (), s1)
  | .ok c => (.ok (), { s1 with cache := c })

/-- Number of dollar placeholders in the SQL text of get_all_active_pets: the
query embeds the threshold as the literal two characters percent-s inside an
interval literal instead of a placeholder, so the prepared statement binds
zero parameters. -/
def staleQueryParamCount : Nat := 0

/-- Number of arguments the code passes to fetch in get_all_active_pets (the
hours_threshold value). -/
def staleQueryArgCount : Nat := 1

/-- Insertion of a pet into a list sorted ascending by last_update. -/
def insertByLastUpdate (p : Pet) : List Pet → List Pet
  | [] => [p]
  | q :: qs =>
    if p.last_update ≤ q.last_update then p :: q :: qs
    else q :: insertByLastUpdate p qs

/-- Stable sort ascending by last_update, the ORDER BY of
get_all_active_pets. -/
def sortByLastUpdate : List Pet → List Pet
  | [] => []
  | p :: ps => insertByLastUpdate p (sortByLastUpdate ps)

/-- PetRepository.get_all_active_pets: asyncpg refuses a fetch whose argument
count differs from the placeholder count of the prepared statement, so with
zero placeholders and one argument the call raises on every input; the
then-branch holds the semantics the query text describes (pets whose
last_update lies after NOW() minus the threshold in hours, ascending by
last_update; the SELECT projects a subset of columns, which the model leaves
as whole rows). -/
def get_all_active_pets (hours_threshold : Int) (now : Nat) (s : Sys) :
    Except Unit (List Pet) × Sys :=
  if staleQueryParamCount == staleQueryArgCount then
    (.ok (sortByLastUpdate (s.db.pets.filter
      (fun p => (now : Int) - hours_threshold * 3600 < (p.last_update : Int)))), s)
  else (.error (), s)

/-- PetRepository.record_game_session: INSERT ... SELECT appends one session
row per pet row of the user (zero rows when the user has no pet). The cache
is not involved. -/
def record_game_session (uid : Int) (game_type : String) (result : String)
    (exp_gained : Int) (coins_gained : Int) (s : Sys) : Sys :=
  let rows := (s.db.pets.filter (fun p => p.user_id == uid)).map
    (fun p => GameSession.mk p.id game_type result exp_gained coins_gained)
  { s with db := { s.db with game_sessions := s.db.game_sessions ++ rows } }

/-- Catalog ordering of get_shop_items: ORDER BY category, price. -/
def itemLe (a b : Item) : Bool :=
  decide (a.category < b.category) || (a.category == b.category && a.price ≤ b.price)

/-- Insertion into a list sorted by itemLe. -/
def insertItem (a : Item) : List Item → List Item
  | [] => [a]
  | b :: bs => if itemLe a b then a :: b :: bs else b :: insertItem a bs

/-- Stable sort by category then price. -/
def sortItems : List Item → List Item
  | [] => []
  | a :: as => insertItem a (sortItems as)

/-- ShopRepository.get_shop_items: cache-aside read of the catalog under the
shop items key; on a miss with a working client the sorted catalog is cached
with TTL 3600. -/
def get_shop_items (s : Sys) : Except Unit (List Item) × Sys :=
  match s.cache.mode with
  | .failing => (.error (), s)
  | .ok =>
    match s.cache.items with
    | some e => (.ok e.2, s)
    | none =>
      let its := sortItems s.db.items
      (.ok its, { s with cache := { s.cache with items := some (3600, its) } })
  | .unavailable => (.ok (sortItems s.db.items), s)

/-- Result dictionary of ShopRepository.purchase_item. -/
inductive PurchaseResult where
  | success (cost : Int)
  | failure (error : String)
deriving DecidableEq, Repr

/-- ShopRepository.purchase_item: inside one transaction, fetch the first row
of the cross join of the item of that name and the pet of that user (the SQL
row order is unspecified; the model takes the first of each in list order);
absent either, report not found; with coins below price times quantity,
report insufficient funds with nothing written; otherwise deduct the total
cost from the coins of every pet row of the user and upsert the inventory row
keyed by (pet_id, item_id), incrementing an existing row by the quantity or
inserting a fresh row with it. The cache is never accessed. -/
def purchase_item (uid : Int) (item_name : String) (quantity : Int) (s : Sys) :
    PurchaseResult × Sys :=
  match s.db.items.find? (fun i => i.name == item_name),
        s.db.pets.find? (fun p => p.user_id == uid) with
  | some i, some p =>
    let total_cost := i.price * quantity
    if p.stats.coins < total_cost then (.failure "Insufficient coins", s)
    else
      let pets1 := s.db.pets.map (fun q =>
        if q.user_id == uid then
          { q with stats := { q.stats with coins := q.stats.coins - total_cost } }
        else q)
      let rows := s.db.pet_items
      let rows1 :=
        if rows.any (fun r => r.pet_id == p.id && r.item_id == i.id) then
          rows.map (fun r =>
            if r.pet_id == p.id && r.item_id == i.id then
              { r with quantity := r.quantity + quantity }
            else r)
        else rows ++ [⟨p.id, i.id, quantity⟩]
      (.success total_cost,
        { s with db :=
          { s.db with
            pets := pets1
            pet_items := rows1 } })
  | _, _ => (.failure "Item or pet not found", s)

/-- Quantity of the first inventory row keyed by (pet_id, item_id), the view
through the uniqueness constraint supporting the upsert. -/
def invQty (db : DB) (pid : Nat) (iid : Nat) : Option Int :=
  (db.pet_items.find? (fun r => r.pet_id == pid && r.item_id == iid)).map
    (fun r => r.quantity)

/-- Quantity under a name in an assembled items mapping. -/
def lookupName (m : List (String × Int)) (n : String) : Option Int :=
  (m.find? (fun e => e.1 == n)).map (fun e => e.2)

/-! Concrete fixtures used to instantiate the theorems below. -/

/-- Working cache with no entries. -/
def cacheOkEmpty : Cache := { mode := .ok, pets := [], items := none }

/-- Absent cache client. -/
def cacheUnavail : Cache := { mode := .unavailable, pets := [], items := none }

/-- Failing cache client. -/
def cacheFailing : Cache := { mode := .failing, pets := [], items := none }

/-- Sample catalog item priced 10. -/
def potion : Item := { id := 5, name := "potion", category := "food", price := 10 }

/-- Sample catalog entry for the medicine starter item. -/
def medItem : Item := { id := 6, name := "medicine", category := "care", price := 20 }

/-- Sample catalog entry for the toy starter item. -/
def toyItem : Item := { id := 7, name := "toy", category := "fun", price := 15 }

/-- Sample pet of user 1 holding 30 coins. -/
def exPet : Pet :=
  { id := 10, user_id := 1, name := "Tamagotchi",
    stats := { defaultStats with coins := 30 }, birth_time := 40, last_update := 50 }

/-- Sample system: one pet for user 1, a three-item catalog, two potions in
the inventory, a working empty cache. -/
def exSysBuy : Sys :=
  { db :=
    { users := [1], pets := [exPet], items := [potion, medItem, toyItem],
      pet_items := [⟨10, 5, 2⟩], game_sessions := [], next_pet_id := 11 },
    cache := cacheOkEmpty }

/-- Sample system with the cache client absent. -/
def exSysUnavail : Sys := { exSysBuy with cache := cacheUnavail }

/-- Sample system with the cache client failing. -/
def exSysFailing : Sys := { exSysBuy with cache := cacheFailing }

/-! Helper lemmas about list primitives, shared by the claim theorems. -/

theorem find?_map_pres {α : Type} (p : α → Bool) (f : α → α)
    (hf : ∀ a, p (f a) = p a) :
    ∀ l : List α, (l.map f).find? p = (l.find? p).map f := by
  intro l
  induction l with
  | nil => rfl
  | cons a l ih =>
    cases h : p a with
    | true =>
      rw [List.map_cons, List.find?_cons_of_pos _ ((hf a).trans h),
        List.find?_cons_of_pos _ h]
      rfl
    | false =>
      rw [List.map_cons, List.find?_cons_of_neg _ (by simp [hf a, h]),
        List.find?_cons_of_neg _ (by simp [h]), ih]

theorem find?_filter_not {α : Type} (p : α → Bool) (l : List α) :
    (l.filter (fun a => !(p a))).find? p = none := by
  rw [List.find?_eq_none]
  intro x hx
  have hm := List.of_mem_filter hx
  simp only [Bool.not_eq_true'] at hm
  simp [hm]

/-- C2: purchase_item returns a structured not-found failure when the item or
the pet is missing and a structured insufficient-funds failure when the
balance is below price times quantity, in both cases as a value rather than a
raise and with the whole state, coin balance and inventory included, left
unchanged. -/
theorem purchase_failure_paths (uid : Int) (item_name : String) (quantity : Int)
    (s : Sys) :
    ((s.db.items.find? (fun i => i.name == item_name) = none ∨
      s.db.pets.find? (fun p => p.user_id == uid) = none) →
      purchase_item uid item_name quantity s =
        (.failure "Item or pet not found", s)) ∧
    (∀ i p, s.db.items.find? (fun j => j.name == item_name) = some i →
      s.db.pets.find? (fun q => q.user_id == uid) = some p →
      p.stats.coins < i.price * quantity →
      purchase_item uid item_name quantity s =
        (.failure "Insufficient coins", s)) := by
  constructor
  · intro h
    unfold purchase_item
    cases hi : s.db.items.find? (fun i => i.name == item_name) with
    | none =>
      cases hp : s.db.pets.find? (fun p => p.user_id == uid) <;> rfl
    | some v =>
      cases hp : s.db.pets.find? (fun p => p.user_id == uid) with
      | none => rfl
      | some w =>
        rcases h with h | h
        · rw [hi] at h
          simp at h
        · rw [hp] at h
          simp at h
  · intro i p hi hp hlt
    simp [purchase_item, hi, hp, if_pos hlt]

/-- C2 witness: in the sample system, purchasing a missing item and
purchasing four potions against a balance of 30 both fail as values leaving
the state untouched. -/
theorem purchase_failure_paths_witness :
    purchase_item 1 "elixir" 1 exSysBuy =
      (.failure "Item or pet not found", exSysBuy) ∧
    purchase_item 1 "potion" 4 exSysBuy =
      (.failure "Insufficient coins", exSysBuy) := by
  constructor
  · exact (purchase_failure_paths 1 "elixir" 1 exSysBuy).1 (Or.inl (by decide))
  · exact (purchase_failure_paths 1 "potion" 4 exSysBuy).2 potion exPet
      (by decide) (by decide) (by decide)

/-- C1: with the item in the catalog, the user owning a pet, and the balance
at least price times quantity, purchase_item deducts exactly the total cost
from the coins of the pet, upserts the inventory row keyed by the pet and the
item (a fresh row carrying the purchased quantity when absent, an increment
by the purchased quantity otherwise), and returns success carrying the total
cost; the write happens in the one transaction of the operation. -/
theorem purchase_success_effects (uid : Int) (item_name : String)
    (quantity : Int) (s : Sys) (i : Item) (p : Pet)
    (hi : s.db.items.find? (fun j => j.name == item_name) = some i)
    (hp : s.db.pets.find? (fun q => q.user_id == uid) = some p)
    (hc : i.price * quantity ≤ p.stats.coins) :
    (purchase_item uid item_name quantity s).1
      = .success (i.price * quantity) ∧
    (purchase_item uid item_name quantity s).2.db.pets.find?
        (fun q => q.user_id == uid)
      = some { p with stats :=
          { p.stats with coins := p.stats.coins - i.price * quantity } } ∧
    (match invQty s.db p.id i.id with
     | none =>
       invQty (purchase_item uid item_name quantity s).2.db p.id i.id
         = some quantity
     | some q =>
       invQty (purchase_item uid item_name quantity s).2.db p.id i.id
         = some (q + quantity)) := by
  have hngt : ¬ (p.stats.coins < i.price * quantity) := not_lt.2 hc
  have hpuid : (p.user_id == uid) = true := by
    have h0 := List.find?_some hp
    simpa using h0
  refine ⟨?_, ?_, ?_⟩
  · simp [purchase_item, hi, hp, if_neg hngt]
  · have hmap := find?_map_pres (fun q : Pet => q.user_id == uid)
      (fun q : Pet => if q.user_id == uid then
        { q with stats :=
          { q.stats with coins := q.stats.coins - i.price * quantity } }
        else q)
      (fun a => by dsimp only; split <;> rfl) s.db.pets
    simp only [purchase_item, hi, hp, if_neg hngt]
    have hpu : p.user_id = uid := by simpa using hpuid
    exact hmap.trans (by rw [hp]; simp [hpu])
  · cases hq : invQty s.db p.id i.id with
    | none =>
      have hfq : s.db.pet_items.find?
          (fun r => r.pet_id == p.id && r.item_id == i.id) = none := by
        simpa [invQty] using hq
      have hany : ¬ (s.db.pet_items.any
          (fun r => r.pet_id == p.id && r.item_id == i.id) = true) := by
        rw [List.any_eq_true]
        rintro ⟨a, ha, hka⟩
        exact (List.find?_eq_none.1 hfq a ha) hka
      simp only [purchase_item, hi, hp, if_neg hngt, if_neg hany]
      simp only [invQty]
      rw [List.find?_append, hfq]
      simp
    | some q =>
      simp only [invQty] at hq
      rcases Option.map_eq_some'.1 hq with ⟨r0, hr0, hq0⟩
      have hk0 : (r0.pet_id == p.id && r0.item_id == i.id) = true := by
        have h0 := List.find?_some hr0
        simpa using h0
      have hany : s.db.pet_items.any
          (fun r => r.pet_id == p.id && r.item_id == i.id) = true :=
        List.any_eq_true.2 ⟨r0, List.mem_of_find?_eq_some hr0, hk0⟩
      have hmap := find?_map_pres
        (fun r : PetItemRow => r.pet_id == p.id && r.item_id == i.id)
        (fun r : PetItemRow => if r.pet_id == p.id && r.item_id == i.id then
          { r with quantity := r.quantity + quantity } else r)
        (fun a => by dsimp only; split <;> rfl) s.db.pet_items
      simp only [purchase_item, hi, hp, if_neg hngt, if_pos hany]
      simp only [invQty]
      refine Eq.trans (congrArg (Option.map fun r => r.quantity) hmap) ?_
      rw [hr0]
      have hk : r0.pet_id = p.id ∧ r0.item_id = i.id := by simpa using hk0
      simp [hk.1, hk.2, hq0]

/-- C1 witness: in the sample system, buying three potions at price 10
against a balance of 30 succeeds with cost 30, leaves the pet with 0 coins,
and raises the potion inventory row from 2 to 5. -/
theorem purchase_success_effects_witness :
    (purchase_item 1 "potion" 3 exSysBuy).1 = .success 30 ∧
    (purchase_item 1 "potion" 3 exSysBuy).2.db.pets.find?
        (fun q => q.user_id == 1)
      = some { exPet with stats := { exPet.stats with coins := 0 } } ∧
    invQty (purchase_item 1 "potion" 3 exSysBuy).2.db 10 5 = some 5 := by
  have h := purchase_success_effects 1 "potion" 3 exSysBuy potion exPet
    rfl rfl (by decide)
  refine ⟨h.1.trans (by decide), h.2.1.trans (by decide), ?_⟩
  have h3 := h.2.2
  rw [show invQty exSysBuy.db exPet.id potion.id = some 2 from rfl] at h3
  exact h3.trans (by decide)

theorem map_id_of_mem {α : Type} (f : α → α) :
    ∀ l : List α, (∀ a ∈ l, f a = a) → l.map f = l := by
  intro l
  induction l with
  | nil => intro _; rfl
  | cons a l ih =>
    intro h
    rw [List.map_cons, h a (List.mem_cons_self a l),
      ih (fun b hb => h b (List.mem_cons_of_mem a hb))]

theorem update_pet_items_db (uid : Int) (item_name : String) (delta : Int)
    (s : Sys) :
    (update_pet_items uid item_name delta s).2.db
      = { s.db with pet_items := s.db.pet_items.map (fun r =>
          if adjTouches s.db uid item_name r then
            { r with quantity := max 0 (r.quantity + delta) } else r) } := by
  simp only [update_pet_items]
  split <;> rfl

/-- C3: update_pet_items rewrites the quantity of every inventory row joining
the user and the item name to max 0 of quantity plus delta, so a nonnegative
inventory stays nonnegative through it and the touched row lands exactly on
the clamp; when no inventory row joins the user and the item name the
database is left entirely unchanged (a non-fatal no-op). -/
theorem adjust_item_clamped (uid : Int) (item_name : String) (delta : Int)
    (s : Sys) :
    ((∀ r ∈ s.db.pet_items, 0 ≤ r.quantity) →
      ∀ r ∈ (update_pet_items uid item_name delta s).2.db.pet_items,
        0 ≤ r.quantity) ∧
    (∀ (pet : Pet) (item : Item) (q : Int), pet ∈ s.db.pets →
      pet.user_id = uid → item ∈ s.db.items → item.name = item_name →
      invQty s.db pet.id item.id = some q →
      invQty (update_pet_items uid item_name delta s).2.db pet.id item.id
        = some (max 0 (q + delta))) ∧
    ((∀ r ∈ s.db.pet_items, adjTouches s.db uid item_name r = false) →
      (update_pet_items uid item_name delta s).2.db = s.db) := by
  refine ⟨?_, ?_, ?_⟩
  · intro h r hr
    rw [update_pet_items_db] at hr
    simp only at hr
    rcases List.mem_map.1 hr with ⟨a, ha, rfl⟩
    split
    · exact le_max_left 0 _
    · exact h a ha
  · intro pet item q hpm hu him hn hq
    simp only [invQty] at hq
    rcases Option.map_eq_some'.1 hq with ⟨r0, hr0, hq0⟩
    have hk : (r0.pet_id == pet.id && r0.item_id == item.id) = true := by
      have h0 := List.find?_some hr0
      simpa using h0
    have hk2 : r0.pet_id = pet.id ∧ r0.item_id = item.id := by simpa using hk
    have ht : adjTouches s.db uid item_name r0 = true := by
      simp only [adjTouches, Bool.and_eq_true]
      constructor
      · exact List.any_eq_true.2 ⟨pet, hpm, by simp [hk2.1, hu]⟩
      · exact List.any_eq_true.2 ⟨item, him, by simp [hk2.2, hn]⟩
    have hmap := find?_map_pres
      (fun r : PetItemRow => r.pet_id == pet.id && r.item_id == item.id)
      (fun r : PetItemRow => if adjTouches s.db uid item_name r then
        { r with quantity := max 0 (r.quantity + delta) } else r)
      (fun a => by dsimp only; split <;> rfl) s.db.pet_items
    rw [update_pet_items_db]
    simp only [invQty]
    refine Eq.trans (congrArg (Option.map fun r => r.quantity) hmap) ?_
    rw [hr0]
    simp [ht, hq0]
  · intro h
    have hm : s.db.pet_items.map (fun r =>
        if adjTouches s.db uid item_name r then
          { r with quantity := max 0 (r.quantity + delta) } else r)
        = s.db.pet_items :=
      map_id_of_mem _ _ (fun a ha => by simp [h a ha])
    refine (update_pet_items_db uid item_name delta s).trans ?_
    rw [hm]

/-- C3 witness: in the sample system, adjusting the potion of user 1 by
minus five from a stock of two lands on zero, not minus three. -/
theorem adjust_item_clamped_witness :
    invQty (update_pet_items 1 "potion" (-5) exSysBuy).2.db 10 5 = some 0 := by
  have h := (adjust_item_clamped 1 "potion" (-5) exSysBuy).2.1 exPet potion 2
    (by decide) (by decide) (by decide) (by decide) (by decide)
  exact h.trans (by decide)

theorem filter_idem {α : Type} (p : α → Bool) (l : List α) :
    (l.filter p).filter p = l.filter p := by
  rw [List.filter_filter]
  simp

/-- C4: update_pet honors exactly the fixed allow-list: the call behaves
identically to the call on the allow-filtered mapping (any other field is
silently dropped, not rejected), and with a working or absent cache client it
returns true exactly when some surviving field exists and the user has a pet
row to rewrite — in particular false when the user has no pet or every
supplied field was dropped. -/
theorem update_pet_allowlist (uid : Int) (upds : List (String × Int))
    (now : Nat) (s : Sys) (hmode : s.cache.mode ≠ CacheMode.failing) :
    update_pet uid upds now s
      = update_pet uid (upds.filter (fun u => allowedFields.contains u.1)) now s ∧
    ((update_pet uid upds now s).1 = Except.ok true ↔
      upds.filter (fun u => allowedFields.contains u.1) ≠ [] ∧
      s.db.pets.any (fun p => p.user_id == uid) = true) := by
  cases upds with
  | nil => exact ⟨rfl, by simp [update_pet]⟩
  | cons a l =>
    by_cases hF : (a :: l).filter (fun u => allowedFields.contains u.1) = []
    · have e1 : update_pet uid (a :: l) now s = (Except.ok false, s) := by
        simp only [update_pet, List.isEmpty_cons, Bool.false_eq_true, if_false]
        rw [hF]
        simp
      have e2 : update_pet uid
          ((a :: l).filter (fun u => allowedFields.contains u.1)) now s
          = (Except.ok false, s) := by
        rw [hF]
        rfl
      refine ⟨e1.trans e2.symm, ?_⟩
      rw [e1]
      constructor
      · intro he
        simp at he
      · rintro ⟨hne, -⟩
        exact absurd hF hne
    · have hFe : ((a :: l).filter
          (fun u => allowedFields.contains u.1)).isEmpty = false := by
        cases hc : (a :: l).filter (fun u => allowedFields.contains u.1) with
        | nil => exact absurd hc hF
        | cons b m => exact List.isEmpty_cons
      have hres : (update_pet uid (a :: l) now s).1
          = Except.ok (s.db.pets.any (fun p => p.user_id == uid)) := by
        simp only [update_pet, List.isEmpty_cons, Bool.false_eq_true,
          if_false, hFe]
        cases hm : s.cache.mode with
        | failing => exact absurd hm hmode
        | ok => simp [cacheDeletePet, hm]
        | unavailable => simp [cacheDeletePet, hm]
      constructor
      · simp only [update_pet, List.isEmpty_cons, Bool.false_eq_true,
          if_false, hFe, filter_idem]
      · rw [hres]
        constructor
        · intro he
          exact ⟨hF, by simpa using he⟩
        · rintro ⟨-, hany⟩
          rw [hany]

/-- C4 witness: in the sample system an update carrying a bogus field behaves
exactly like the update without it, and returns true since user 1 has a pet
and the coins field survives the allow-list. -/
theorem update_pet_allowlist_witness :
    update_pet 1 [("coins", 7), ("bogus", 3)] 100 exSysBuy
      = update_pet 1 [("coins", 7)] 100 exSysBuy ∧
    (update_pet 1 [("coins", 7), ("bogus", 3)] 100 exSysBuy).1
      = Except.ok true := by
  have h := update_pet_allowlist 1 [("coins", 7), ("bogus", 3)] 100 exSysBuy
    (by decide)
  exact ⟨h.1, h.2.mpr ⟨by decide, by decide⟩⟩

theorem filter_id_unique :
    ∀ l : List Item, (l.map Item.id).Nodup →
      ∀ i ∈ l, l.filter (fun j => j.id == i.id) = [i] := by
  intro l
  induction l with
  | nil =>
    intro _ i hi
    simp at hi
  | cons a l ih =>
    intro hnd i hi
    have hturn : a.id ∉ l.map Item.id ∧ (l.map Item.id).Nodup := by
      rw [List.map_cons, List.nodup_cons] at hnd
      exact hnd
    rcases List.mem_cons.1 hi with rfl | hi2
    · have hni : l.filter (fun j => j.id == i.id) = [] :=
        List.filter_eq_nil_iff.2 (fun j hj => by
          simp only [beq_iff_eq]
          intro he
          exact hturn.1 (he ▸ List.mem_map_of_mem Item.id hj))
      simp [List.filter_cons, hni]
    · have hne : (a.id == i.id) = false := by
        simp only [beq_eq_false_iff_ne, ne_eq]
        intro he
        exact hturn.1 (he ▸ List.mem_map_of_mem Item.id hi2)
      simp [List.filter_cons, hne, ih hturn.2 i hi2]

theorem flatMap_rows (f : String → Int) (pid : Nat) (items : List Item) :
    ∀ l : List Item,
      (∀ j ∈ l, items.filter (fun k => k.id == j.id) = [j]) →
      (l.map (fun j => PetItemRow.mk pid j.id (f j.name))).flatMap
        (fun r => (items.filter (fun k => k.id == r.item_id)).map
          (fun k => (k.name, r.quantity)))
      = l.map (fun j => (j.name, f j.name)) := by
  intro l
  induction l with
  | nil => intro _; rfl
  | cons a l ih =>
    intro h
    rw [List.map_cons, List.flatMap_cons]
    dsimp only
    rw [h a (List.mem_cons_self a l),
      ih (fun j hj => h j (List.mem_cons_of_mem a hj))]
    rfl

theorem lookup_map_name (f : String → Int) :
    ∀ l : List Item, ∀ i ∈ l,
      lookupName (l.map (fun j => (j.name, f j.name))) i.name
        = some (f i.name) := by
  intro l
  induction l with
  | nil =>
    intro i hi
    simp at hi
  | cons a l ih =>
    intro i hi
    cases h : (a.name == i.name) with
    | true =>
      have he : a.name = i.name := by simpa using h
      simp [lookupName, List.find?_cons, h, he]
    | false =>
      rcases List.mem_cons.1 hi with rfl | hi2
      · simp at h
      · have hr := ih i hi2
        simpa [lookupName, List.find?_cons, h] using hr

theorem get_pet_fst_of_miss (uid : Int) (s : Sys)
    (hmode : s.cache.mode ≠ CacheMode.failing)
    (hmiss : s.cache.mode = CacheMode.ok →
      s.cache.pets.find? (fun e => e.1 == uid) = none) :
    (get_pet_by_user_id uid s).1 = Except.ok (dbGetPet uid s.db) := by
  cases hm : s.cache.mode with
  | failing => exact absurd hm hmode
  | ok =>
    simp only [get_pet_by_user_id, hm, hmiss hm]
    cases hd : dbGetPet uid s.db <;> rfl
  | unavailable => simp [get_pet_by_user_id, hm]

theorem create_pet_fst (uid : Int) (name : String) (now : Nat) (s : Sys)
    (hmode : s.cache.mode ≠ CacheMode.failing) :
    (create_pet uid name now s).1
      = Except.ok (dbGetPet uid (create_db uid name now s.db)) := by
  cases hm : s.cache.mode with
  | failing => exact absurd hm hmode
  | ok =>
    simp only [create_pet, cacheDeletePet, hm]
    rw [get_pet_fst_of_miss]
    · simp [hm]
    · intro _
      exact find?_filter_not (fun e => e.1 == uid) s.cache.pets
  | unavailable =>
    simp only [create_pet, cacheDeletePet, hm]
    rw [get_pet_fst_of_miss]
    · simp [hm]
    · intro hcon
      simp [hm] at hcon

/-- C5: with no existing pet for the user, fresh inventory keys, and a
duplicate-free catalog id column, create_pet followed by the cache-aside read
returns a pet snapshot whose inventory mapping carries every catalog item:
the starter items medicine and toy at quantity 1 and every other catalog item
at quantity 0. -/
theorem create_then_get_seeded (uid : Int) (name : String) (now : Nat)
    (s : Sys) (hmode : s.cache.mode ≠ CacheMode.failing)
    (hnopet : s.db.pets.find? (fun p => p.user_id == uid) = none)
    (hfresh : ∀ r ∈ s.db.pet_items, r.pet_id ≠ s.db.next_pet_id)
    (hids : (s.db.items.map Item.id).Nodup) :
    ∃ d, (create_pet uid name now s).1 = Except.ok (some d) ∧
      ∀ i ∈ s.db.items, lookupName d.items i.name
        = some (if i.name == "medicine" || i.name == "toy" then 1 else 0) := by
  refine ⟨toPetData (create_db uid name now s.db)
    (created_pet uid name now s.db), ?_, ?_⟩
  · rw [create_pet_fst uid name now s hmode]
    simp only [dbGetPet]
    rw [show (create_db uid name now s.db).pets
        = s.db.pets ++ [created_pet uid name now s.db] from rfl,
      List.find?_append, hnopet]
    have hcp : (created_pet uid name now s.db).user_id = uid := rfl
    simp [List.find?_cons, hcp]
  · intro i hi
    have step1 : petItemsMap (create_db uid name now s.db) s.db.next_pet_id
        = (s.db.items.map (fun j => PetItemRow.mk s.db.next_pet_id j.id
            (if j.name == "medicine" || j.name == "toy" then 1 else 0))).flatMap
          (fun r => (s.db.items.filter (fun k => k.id == r.item_id)).map
            (fun k => (k.name, r.quantity))) := by
      simp only [petItemsMap]
      rw [show (create_db uid name now s.db).items = s.db.items from rfl,
        show (create_db uid name now s.db).pet_items
          = s.db.pet_items ++ s.db.items.map (fun j =>
              PetItemRow.mk s.db.next_pet_id j.id
                (if j.name == "medicine" || j.name == "toy" then 1 else 0))
          from rfl,
        List.filter_append]
      have h1 : s.db.pet_items.filter
          (fun r => r.pet_id == s.db.next_pet_id) = [] :=
        List.filter_eq_nil_iff.2 (fun r hr => by simpa using hfresh r hr)
      have h2 : (s.db.items.map (fun j => PetItemRow.mk s.db.next_pet_id j.id
          (if j.name == "medicine" || j.name == "toy" then 1 else 0))).filter
          (fun r => r.pet_id == s.db.next_pet_id)
          = s.db.items.map (fun j => PetItemRow.mk s.db.next_pet_id j.id
            (if j.name == "medicine" || j.name == "toy" then 1 else 0)) :=
        List.filter_eq_self.2 (fun r hr => by
          rcases List.mem_map.1 hr with ⟨j, _, rfl⟩
          simp)
      rw [h1, h2, List.nil_append]
    have step2 := flatMap_rows
      (fun n => if n == "medicine" || n == "toy" then 1 else 0)
      s.db.next_pet_id s.db.items s.db.items
      (fun j hj => filter_id_unique s.db.items hids j hj)
    have step3 := lookup_map_name
      (fun n => if n == "medicine" || n == "toy" then 1 else 0) s.db.items i hi
    exact (congrArg (fun m => lookupName m i.name) (step1.trans step2)).trans
      step3

/-- C5 witness: creating a pet for user 2 in the sample system and reading it
back yields an inventory mapping with medicine and toy at quantity 1 and
potion at quantity 0. -/
theorem create_then_get_seeded_witness :
    ∃ d, (create_pet 2 "Tamagotchi" 100 exSysBuy).1 = Except.ok (some d) ∧
      ∀ i ∈ exSysBuy.db.items, lookupName d.items i.name
        = some (if i.name == "medicine" || i.name == "toy" then 1 else 0) :=
  create_then_get_seeded 2 "Tamagotchi" 100 exSysBuy (by decide) (by decide)
    (by decide) (by decide)

/-- C6: get_all_active_pets never returns its row list: the SQL text binds
zero dollar placeholders (the threshold sits in the query as literal text)
while one argument is passed to fetch, so the driver rejects the call and the
coroutine raises for every threshold and every state. -/
theorem stale_query_always_raises (hours_threshold : Int) (now : Nat) (s : Sys) :
    get_all_active_pets hours_threshold now s = (Except.error (), s) := by
  simp [get_all_active_pets, staleQueryParamCount, staleQueryArgCount]

/-- C7 counterexample: the store holds a pet for user 1 (the absent-client
read returns it), yet with the cache client present but failing the very same
read propagates the cache fault instead of returning that store result, so a
failing cache get does not degrade to a store read. -/
theorem cache_get_failure_counterexample :
    (get_pet_by_user_id 1 exSysFailing).1 = Except.error () ∧
    (get_pet_by_user_id 1 exSysUnavail).1
      = Except.ok (some (toPetData exSysBuy.db exPet)) := by
  constructor
  · rfl
  · rfl

/-- C7 (amended): when the cache client is absent, get_pet_by_user_id and
get_shop_items return exactly the direct store read as a non-error value;
when the client is present but a cache get raises, however, the exception
propagates and the operation fails rather than falling back to the store. -/
theorem cache_unavailable_degrades (uid : Int) (s : Sys)
    (h : s.cache.mode = CacheMode.unavailable) :
    get_pet_by_user_id uid s = (Except.ok (dbGetPet uid s.db), s) ∧
    get_shop_items s = (Except.ok (sortItems s.db.items), s) ∧
    (get_pet_by_user_id uid
        { s with cache := { s.cache with mode := CacheMode.failing } }).1
      = Except.error () := by
  refine ⟨?_, ?_, ?_⟩ <;> simp [get_pet_by_user_id, get_shop_items, h]

/-- C7 witness: the amended statement at the sample system with the client
absent. -/
theorem cache_unavailable_degrades_witness :
    get_pet_by_user_id 1 exSysUnavail
      = (Except.ok (dbGetPet 1 exSysUnavail.db), exSysUnavail) :=
  (cache_unavailable_degrades 1 exSysUnavail rfl).1

/-- C8: no pet row ever gets a smaller last_update: update_pet rewrites it to
NOW(), which is not earlier than any stored timestamp, and purchase_item
leaves the last_update of every pet row exactly as it was. -/
theorem last_update_never_backward :
    (∀ (uid : Int) (upds : List (String × Int)) (now : Nat) (s : Sys),
      (∀ p ∈ s.db.pets, p.last_update ≤ now) →
      List.Forall₂ (fun a b => a.last_update ≤ b.last_update) s.db.pets
        (update_pet uid upds now s).2.db.pets) ∧
    (∀ (uid : Int) (item_name : String) (quantity : Int) (s : Sys),
      List.Forall₂ (fun a b => a.last_update = b.last_update) s.db.pets
        (purchase_item uid item_name quantity s).2.db.pets) := by
  constructor
  · intro uid upds now s h
    simp only [update_pet]
    split
    · exact List.forall₂_same.2 fun a _ => le_refl _
    · split
      · exact List.forall₂_same.2 fun a _ => le_refl _
      · split <;>
        · refine List.forall₂_map_right_iff.2 (List.forall₂_same.2 fun a ha => ?_)
          dsimp only
          split
          · exact h a ha
          · exact le_refl _
  · intro uid item_name quantity s
    simp only [purchase_item]
    split
    · split
      · exact List.forall₂_same.2 fun a _ => rfl
      · refine List.forall₂_map_right_iff.2 (List.forall₂_same.2 fun a _ => ?_)
        dsimp only
        split <;> rfl
    · exact List.forall₂_same.2 fun a _ => rfl

/-- C8 witness: in the sample system an update at time 100 and a purchase
leave every last_update at least its previous value. -/
theorem last_update_never_backward_witness :
    List.Forall₂ (fun a b => a.last_update ≤ b.last_update) exSysBuy.db.pets
      (update_pet 1 [("coins", 7)] 100 exSysBuy).2.db.pets ∧
    List.Forall₂ (fun a b => a.last_update = b.last_update) exSysBuy.db.pets
      (purchase_item 1 "potion" 3 exSysBuy).2.db.pets := by
  exact ⟨last_update_never_backward.1 1 [("coins", 7)] 100 exSysBuy (by decide),
    last_update_never_backward.2 1 "potion" 3 exSysBuy⟩

/-- C9: purchase_item never touches the cache: the cache comes back exactly
as it was, and neither the returned result nor the database effect depends in
any way on the cache contents or its mode. -/
theorem purchase_cache_frame (uid : Int) (item_name : String) (quantity : Int)
    (s : Sys) (c : Cache) :
    (purchase_item uid item_name quantity s).2.cache = s.cache ∧
    (purchase_item uid item_name quantity { db := s.db, cache := c }).1
      = (purchase_item uid item_name quantity s).1 ∧
    (purchase_item uid item_name quantity { db := s.db, cache := c }).2.db
      = (purchase_item uid item_name quantity s).2.db := by
  simp only [purchase_item]
  cases hi : s.db.items.find? (fun i => i.name == item_name) <;>
    cases hp : s.db.pets.find? (fun p => p.user_id == uid) <;>
    simp
  split <;> simp

/-- C10: record_game_session appends one session row per pet row of the
user: with no pet row it completes as a value-level no-op leaving the whole
state (the game_sessions table included) unchanged, and with exactly one pet
row it appends exactly one session row. -/
theorem record_session_rows (uid : Int) (gt rs : String) (eg cg : Int) (s : Sys) :
    ((∀ p ∈ s.db.pets, p.user_id ≠ uid) →
      record_game_session uid gt rs eg cg s = s) ∧
    (s.db.pets.countP (fun p => p.user_id == uid) = 1 →
      (record_game_session uid gt rs eg cg s).db.game_sessions.length
        = s.db.game_sessions.length + 1) := by
  constructor
  · intro h
    have hf : s.db.pets.filter (fun p => p.user_id == uid) = [] := by
      rw [List.filter_eq_nil_iff]
      intro a ha
      simpa using h a ha
    simp [record_game_session, hf]
  · intro h
    have hl : (s.db.pets.filter (fun p => p.user_id == uid)).length = 1 := by
      rw [← List.countP_eq_length_filter]
      exact h
    simp [record_game_session, hl]

/-- C10 witness: in the sample system, recording a session for user 2 (who
has no pet) changes nothing, and recording one for user 1 (who has exactly
one pet) appends exactly one row. -/
theorem record_session_rows_witness :
    record_game_session 2 "guess" "win" 5 7 exSysBuy = exSysBuy ∧
    (record_game_session 1 "guess" "win" 5 7 exSysBuy).db.game_sessions.length
      = exSysBuy.db.game_sessions.length + 1 := by
  exact ⟨(record_session_rows 2 "guess" "win" 5 7 exSysBuy).1 (by decide),
    (record_session_rows 1 "guess" "win" 5 7 exSysBuy).2 (by decide)⟩

end PixelPet
